import Mathlib

/-!
# WebVOWL graph controller (`src/webvowl/js/graph.js`)

A shallow embedding of the data step, the freeze / language controller calls and
the link-distance and link-path callbacks of `graph.js`, together with
`elements/nodes/RectangularNode.js`.

Objects with identity are referred to by a natural number: a node by its
`NodeId`, a link by the `uid` it received when `new Link` allocated it.  The
mutable part of a node (`links()`, `frozen()`, `locked()`) lives in a `Heap`.
-/

namespace WebVOWL

/-! ## Data model -/

/-- Reference to a node object; `===` on nodes is equality of references. -/
abbrev NodeId := Nat

/-- A parsed property: its own identity, its domain and range node and the
identity of its inverse property, when it has one. -/
structure Property where
  id : Nat
  domain : NodeId
  range : NodeId
  inverse : Option Nat
deriving DecidableEq, Repr

/-- A renderable link.  The field `uid` is the identity of the link object,
`property` the forward property and `inverse` the merged inverse property. -/
structure Link where
  uid : Nat
  domain : NodeId
  range : NodeId
  property : Property
  inverse : Option Nat
deriving DecidableEq, Repr

/-- Modelled from the spec: the mutable flags of a node object (`BaseNode.js` is
not part of the sources).  The spec lists the incident-link list, the locked
flag and the frozen flag as independent fields of a node. -/
structure Node where
  links : List Link
  frozen : Bool
  locked : Bool
deriving DecidableEq, Repr

/-- The node objects reachable from the graph, by reference. -/
abbrev Heap := NodeId → Node

/-- The call `node.links(connectedLinks)`. -/
def Heap.setLinks (heap : Heap) (node : NodeId) (connectedLinks : List Link) : Heap :=
  fun m => if m = node then { heap m with links := connectedLinks } else heap m

/-- The call `node.frozen(p)`. -/
def Heap.setFrozen (heap : Heap) (node : NodeId) (p : Bool) : Heap :=
  fun m => if m = node then { heap m with frozen := p } else heap m

/-- The call `node.locked(p)`. -/
def Heap.setLocked (heap : Heap) (node : NodeId) (p : Bool) : Heap :=
  fun m => if m = node then { heap m with locked := p } else heap m

/-! ## Link builder -/

/-- Modelled from the spec: `linkCreator.createLinks` (`parsing/linkCreator.js`
is not part of the sources).  For each property, in input order, that was not
already consumed as another property's inverse, one fresh link is created with
the property's domain and range; an inverse, when present, is merged into the
same link and marked as consumed.  `consumed` holds the identities of the
properties consumed so far and `uid` is the identity the next link receives. -/
def groupPropertiesToLinks : List Property → List Nat → Nat → List Link
  | [], _, _ => []
  | p :: ps, consumed, uid =>
    if p.id ∈ consumed then groupPropertiesToLinks ps consumed uid
    else
      { uid := uid, domain := p.domain, range := p.range, property := p, inverse := p.inverse }
        :: groupPropertiesToLinks ps (p.inverse.toList ++ consumed) (uid + 1)

/-- Modelled from the spec: `linkCreator.createLinks(properties)`, allocating
link identities from `uid` on. -/
def createLinks (uid : Nat) (properties : List Property) : List Link :=
  groupPropertiesToLinks properties [] uid

/-- The inner loop of `storeLinksOnNodes` (graph.js 397-403): scan `links` and
push every link whose domain or range is `node`. -/
def connectedLinks (node : NodeId) (links : List Link) : List Link :=
  links.foldl
    (fun acc link => if link.domain = node ∨ link.range = node then acc ++ [link] else acc) []

/-- `storeLinksOnNodes(nodes, links)` (graph.js 391-407). -/
def storeLinksOnNodes (heap : Heap) (nodes : List NodeId) (links : List Link) : Heap :=
  nodes.foldl (fun h node => h.setLinks node (connectedLinks node links)) heap

/-! ## Values, effects and completions -/

/-- The JavaScript values a caller passes as a language: `undefined`, `null` or
a string.  Strings are compared by content, as `!==` does. -/
inductive JsVal where
  | undefined
  | null
  | str (s : String)
deriving DecidableEq, Repr

/-- JavaScript truthiness: `undefined`, `null` and the empty string are falsy. -/
def JsVal.truthy : JsVal → Bool
  | .str s => !(s == "")
  | _ => false

/-- The expression `v || "default"`. -/
def JsVal.orDefault (v : JsVal) : JsVal :=
  if v.truthy then v else .str "default"

/-- Calls into the collaborators of the controller, in the order they are made. -/
inductive Effect where
  | forceStop
  | forceStart
  | forceResume
  | parse
  | removeGraph
  | appendSvg
  | zoomScaleExtent
  | zoomEvent
  | forceStyle
  | zoomReset
  | redrawContent
  | recalculatePositions
  | stopPropagation
deriving DecidableEq, Repr

/-- Ghost record of one `module.filter(preprocessedNodes, preprocessedProperties)`
call of `refreshGraphData`: the node objects and the `links` variable at the
moment of the call, the arguments, and what `filteredNodes()` and
`filteredProperties()` return afterwards. -/
structure FilterCall where
  heap : Heap
  links : List Link
  nodes : List NodeId
  properties : List Property
  filteredNodes : List NodeId
  filteredProperties : List Property

/-- A filter module: `filter(nodes, properties)` may read the node objects it is
given (their `links()` and flags) and stores its own output; the result is the
pair `(filteredNodes(), filteredProperties())` read back right after the call.
A module does not write to the node objects. -/
abbrev FilterModule := Heap → List NodeId → List Property → List NodeId × List Property

/-- What the controller reads from its collaborators during a call:
`options.filterModules()` and, because `parser.js` is not part of the sources,
the arrays `parser.nodes()` and `parser.properties()` deliver after
`parser.parse(options.data())`. -/
structure Env where
  filterModules : List FilterModule
  parserNodes : List NodeId
  parserProperties : List Property

/-- The closure variables of one graph instance (graph.js 18-42).  A variable
that is `undefined` is `none`; the graph container and the visual element
selections are only tracked as defined or not.  The fields `nextUid`, `effects` and `filterCalls` are
ghost state: the next link identity, the collaborator calls made so far and the
filter calls of the latest `refreshGraphData`. -/
structure Graph where
  language : JsVal
  graphContainer : Bool
  nodeElements : Bool
  labelGroupElements : Bool
  cardinalityElements : Bool
  linkPathElements : Bool
  nodes : Option (List NodeId)
  properties : Option (List Property)
  unfilteredNodes : Option (List NodeId)
  unfilteredProperties : Option (List Property)
  links : Option (List Link)
  forceNodes : List NodeId
  forceLinks : List Link
  heap : Heap
  nextUid : Nat
  effects : List Effect
  filterCalls : List FilterCall

/-- A fresh graph instance: `language = "default"`, every other variable
undefined. -/
def Graph.initial (heap : Heap) : Graph :=
  { language := .str "default", graphContainer := false, nodeElements := false,
    labelGroupElements := false, cardinalityElements := false, linkPathElements := false,
    nodes := none, properties := none, unfilteredNodes := none,
    unfilteredProperties := none, links := none, forceNodes := [], forceLinks := [],
    heap := heap, nextUid := 0, effects := [], filterCalls := [] }

/-- Append a collaborator call to the log. -/
def Graph.emit (g : Graph) (e : Effect) : Graph :=
  { g with effects := g.effects ++ [e] }

/-- How a call ends: it returns a value, or it throws (a `TypeError` on reading a
member of `undefined`); in both cases the closure variables keep the state
reached so far. -/
inductive Completion (ρ : Type) where
  | returned (g : Graph) (value : ρ)
  | thrown (g : Graph)

/-- The state of the graph when the call ended. -/
def Completion.state {ρ : Type} : Completion ρ → Graph
  | .returned g _ => g
  | .thrown g => g

/-- Whether the call ended by returning. -/
def Completion.isReturned {ρ : Type} : Completion ρ → Bool
  | .returned _ _ => true
  | .thrown _ => false

/-- Sequencing of statements: a throw aborts the rest. -/
def Completion.andThen {ρ τ : Type} (c : Completion ρ) (f : Graph → Completion τ) :
    Completion τ :=
  match c with
  | .returned g _ => f g
  | .thrown g => .thrown g

/-! ## The data step -/

/-- The variables the `forEach` loop of `refreshGraphData` reads and writes. -/
structure RefreshLoop where
  heap : Heap
  nextUid : Nat
  links : Option (List Link)
  preprocessedNodes : List NodeId
  preprocessedProperties : List Property
  filterCalls : List FilterCall

/-- Ghost record of the call `module.filter(preprocessedNodes,
preprocessedProperties)` made in an iteration that starts in `st`: before it,
`links` is rebuilt from the input properties and stored on the input nodes
(graph.js 373-374). -/
def filterCall (st : RefreshLoop) (module : FilterModule) : FilterCall :=
  let links := createLinks st.nextUid st.preprocessedProperties
  let heap := storeLinksOnNodes st.heap st.preprocessedNodes links
  let out := module heap st.preprocessedNodes st.preprocessedProperties
  { heap := heap, links := links, nodes := st.preprocessedNodes,
    properties := st.preprocessedProperties,
    filteredNodes := out.1, filteredProperties := out.2 }

/-- One iteration of the filter loop (graph.js 373-378). -/
def filterStep (st : RefreshLoop) (module : FilterModule) : RefreshLoop :=
  let links := createLinks st.nextUid st.preprocessedProperties
  let heap := storeLinksOnNodes st.heap st.preprocessedNodes links
  let out := module heap st.preprocessedNodes st.preprocessedProperties
  { heap := heap
    nextUid := st.nextUid + links.length
    links := some links
    preprocessedNodes := out.1
    preprocessedProperties := out.2
    filterCalls := st.filterCalls ++ [filterCall st module] }

/-- The loop `options.filterModules().forEach(...)` (graph.js 372-379). -/
def runFilterModules : List FilterModule → RefreshLoop → RefreshLoop
  | [], st => st
  | module :: rest, st => runFilterModules rest (filterStep st module)

/-- `refreshGraphData()` (graph.js 367-389).  When the raw data is still
undefined the call throws: `createLinks(undefined)` on reading the properties,
`storeLinksOnNodes(undefined, links)` on reading `nodes.length`. -/
def refreshGraphData (env : Env) (g : Graph) : Completion Unit :=
  match g.unfilteredProperties with
  | none =>
    match env.filterModules with
    | [] => .thrown { g with nodes := g.unfilteredNodes, properties := none, filterCalls := [] }
    | _ :: _ => .thrown { g with filterCalls := [] }
  | some unfilteredProperties =>
    match g.unfilteredNodes with
    | none =>
      let links := createLinks g.nextUid unfilteredProperties
      match env.filterModules with
      | [] => .thrown { g with nodes := none, properties := some unfilteredProperties,
                               links := some links, nextUid := g.nextUid + links.length,
                               filterCalls := [] }
      | _ :: _ => .thrown { g with links := some links, nextUid := g.nextUid + links.length,
                                   filterCalls := [] }
    | some unfilteredNodes =>
      let st := runFilterModules env.filterModules
        { heap := g.heap, nextUid := g.nextUid, links := g.links,
          preprocessedNodes := unfilteredNodes,
          preprocessedProperties := unfilteredProperties, filterCalls := [] }
      let links := createLinks st.nextUid st.preprocessedProperties
      .returned
        { g with nodes := some st.preprocessedNodes
                 properties := some st.preprocessedProperties
                 links := some links
                 heap := storeLinksOnNodes st.heap st.preprocessedNodes links
                 nextUid := st.nextUid + links.length
                 forceNodes := st.preprocessedNodes
                 forceLinks := links
                 filterCalls := st.filterCalls } ()

/-! ## Controller calls -/

/-- `loadGraphData()` (graph.js 357-362). -/
def loadGraphData (env : Env) (g : Graph) : Graph :=
  { g.emit .parse with unfilteredNodes := some env.parserNodes,
                       unfilteredProperties := some env.parserProperties }

/-- `refreshGraphStyle()` (graph.js 413-424). -/
def refreshGraphStyle (g : Graph) : Graph :=
  let g1 := g.emit .zoomScaleExtent
  let g2 := if g1.graphContainer then g1.emit .zoomEvent else g1
  g2.emit .forceStyle

/-- `redrawGraph()` (graph.js 231-241), with `remove()` (graph.js 429-434). -/
def redrawGraph (g : Graph) : Graph :=
  let g1 := if g.graphContainer then g.emit .removeGraph else g
  { g1.emit .appendSvg with graphContainer := true }

/-- `redrawContent()` (graph.js 246-336): nothing happens without a graph
container; otherwise the container is emptied and the scene is rebuilt by
binding `nodes`, then `links`, then `properties`, then `links` again.  Binding
an array that is still undefined throws in d3 (`selection.data` reads its
length), which leaves the selections assigned so far. -/
def redrawContent (g : Graph) : Completion Unit :=
  if !g.graphContainer then .returned g ()
  else
    let g1 := g.emit .redrawContent
    match g1.nodes with
    | none => .thrown g1
    | some _ =>
      let g2 := { g1 with nodeElements := true }
      match g2.links with
      | none => .thrown g2
      | some _ =>
        let g3 := { g2 with labelGroupElements := true }
        match g3.properties with
        | none => .thrown g3
        | some _ => .returned { g3 with cardinalityElements := true, linkPathElements := true } ()

/-- `recalculatePositions()` (graph.js 47-89) as seen by the controller: the four
selections are repositioned in turn, and reading `attr` of a selection that is
still undefined throws.  What the callback of the link paths computes for one
link is `linkPathCallback` below. -/
def recalculatePositions (g : Graph) : Completion Unit :=
  let g1 := g.emit .recalculatePositions
  if g1.nodeElements && g1.linkPathElements && g1.labelGroupElements && g1.cardinalityElements
  then .returned g1 () else .thrown g1

/-- `graph.update()` (graph.js 168-173). -/
def update (env : Env) (g : Graph) : Completion Unit :=
  (refreshGraphData env g).andThen fun g1 =>
    redrawContent ((refreshGraphStyle g1).emit .forceStart)

/-- `graph.start()` (graph.js 145-150). -/
def start (env : Env) (g : Graph) : Completion Unit :=
  update env (redrawGraph (loadGraphData env (g.emit .forceStop)))

/-- `graph.updateStyle()` (graph.js 155-158). -/
def updateStyle (g : Graph) : Completion Unit :=
  .returned ((refreshGraphStyle g).emit .forceStart) ()

/-- `graph.reload()` (graph.js 160-163). -/
def reload (env : Env) (g : Graph) : Completion Unit :=
  update env (loadGraphData env g)

/-- `graph.freeze()` (graph.js 178-184). -/
def freeze (g : Graph) : Graph :=
  match g.nodes with
  | some nodes => { g with heap := nodes.foldl (fun h n => h.setFrozen n true) g.heap }
  | none => g

/-- `graph.unfreeze()` (graph.js 189-196). -/
def unfreeze (g : Graph) : Graph :=
  match g.nodes with
  | some nodes =>
    { g with heap := nodes.foldl (fun h n => h.setFrozen n false) g.heap }.emit .forceResume
  | none => g

/-- `graph.reset()` (graph.js 201-204). -/
def reset (g : Graph) : Graph := g.emit .zoomReset

/-- The `dragstart` listener (graph.js 111-114). -/
def dragStart (d : NodeId) (g : Graph) : Graph :=
  { g.emit .stopPropagation with heap := g.heap.setLocked d true }

/-- The `dragend` listener (graph.js 120-122). -/
def dragEnd (d : NodeId) (g : Graph) : Graph :=
  { g with heap := g.heap.setLocked d false }

/-- What `graph.language` returns: the active language or the graph itself. -/
inductive LanguageResult where
  | language (l : JsVal)
  | graph
deriving DecidableEq, Repr

/-- `graph.language(newLanguage)` (graph.js 440-450); `arg = none` is the call
without arguments. -/
def language (arg : Option JsVal) (g : Graph) : Completion LanguageResult :=
  match arg with
  | none => .returned g (.language g.language)
  | some newLanguage =>
    if g.language ≠ newLanguage then
      (redrawContent { g with language := newLanguage.orDefault }).andThen fun g1 =>
        (recalculatePositions g1).andThen fun g2 => .returned g2 .graph
    else .returned g .graph

/-- The controller calls that may happen between `freeze()` and `unfreeze()`;
`update` and `reload` carry what the options object and the parser deliver at
the time of the call. -/
inductive Event where
  | update (env : Env)
  | reload (env : Env)
  | updateStyle
  | language (arg : Option JsVal)
  | reset
  | dragStart (d : NodeId)
  | dragEnd (d : NodeId)

/-- The graph after one controller call; a call that throws leaves the state it
had reached. -/
def step (g : Graph) : Event → Graph
  | .update env => (update env g).state
  | .reload env => (reload env g).state
  | .updateStyle => (updateStyle g).state
  | .language arg => (language arg g).state
  | .reset => reset g
  | .dragStart d => dragStart d g
  | .dragEnd d => dragEnd d g

/-- The graph after a sequence of controller calls. -/
def run (g : Graph) (events : List Event) : Graph :=
  events.foldl step g

/-- Whether a controller call runs the data step. -/
def Event.refreshesData : Event → Bool
  | .update _ => true
  | .reload _ => true
  | _ => false

/-! ## Example data -/

/-- Node objects as the parser leaves them: no links stored, not frozen, not
locked. -/
def freshHeap : Heap := fun _ => { links := [], frozen := false, locked := false }

/-- A property from node 0 to node 1, without inverse. -/
def exampleProperty : Property := { id := 3, domain := 0, range := 1, inverse := none }

/-- A filter module that hides node 1 and keeps every property. -/
def hideNodeOne : FilterModule := fun _ nodes properties =>
  (nodes.filter (fun n => !(n == 1)), properties)

/-- Two nodes and one property between them, filtered by `hideNodeOne`. -/
def hidingEnv : Env :=
  { filterModules := [hideNodeOne], parserNodes := [0, 1], parserProperties := [exampleProperty] }

/-- The same data without any filter module. -/
def plainEnv : Env :=
  { filterModules := [], parserNodes := [0, 1], parserProperties := [exampleProperty] }

/-- A fresh graph after `loadGraphData` on the example data. -/
def loadedGraph : Graph := loadGraphData hidingEnv (Graph.initial freshHeap)

/-- A property from node 0 to node 2, without inverse. -/
def secondProperty : Property := { id := 4, domain := 0, range := 2, inverse := none }

/-- A filter module that hides node 1 together with every property whose domain
or range is node 1. -/
def dropNodeOne : FilterModule := fun _ nodes properties =>
  (nodes.filter (fun n => !(n == 1)),
   properties.filter (fun p => !(p.domain == 1) && !(p.range == 1)))

/-- Three nodes, a property from 0 to 1 and one from 0 to 2, filtered by
`dropNodeOne`. -/
def consistentEnv : Env :=
  { filterModules := [dropNodeOne], parserNodes := [0, 1, 2],
    parserProperties := [exampleProperty, secondProperty] }

/-- A fresh graph after `loadGraphData` on the three-node data. -/
def consistentGraph : Graph := loadGraphData consistentEnv (Graph.initial freshHeap)

/-! ## Specification of a filter chain run -/

/-- The pipeline contract in the words of the spec: the modules run in
configured order, the first one consumes `nodes` and `properties`, each later
one consumes what the previous one delivered, and `outNodes`, `outProperties`
are what the last one delivered (the input itself for an empty chain).
`calls` lists the filter calls, in order. -/
def FilterChainTrace : List FilterModule → List NodeId → List Property → List FilterCall →
    List NodeId → List Property → Prop
  | [], nodes, properties, calls, outNodes, outProperties =>
    calls = [] ∧ outNodes = nodes ∧ outProperties = properties
  | module :: rest, nodes, properties, calls, outNodes, outProperties =>
    ∃ c cs, calls = c :: cs ∧ c.nodes = nodes ∧ c.properties = properties
      ∧ module c.heap nodes properties = (c.filteredNodes, c.filteredProperties)
      ∧ FilterChainTrace rest c.filteredNodes c.filteredProperties cs outNodes outProperties

/-- What a node's `links()` must hold for a link list: the links whose domain or
range is the node, in order. -/
def incidentLinks (n : NodeId) (links : List Link) : List Link :=
  links.filter (fun l => decide (l.domain = n ∨ l.range = n))

/-! ## Node sizes, link distances and link paths -/

section Geometry

variable {α P : Type}

/-- The size variables of a rectangular node (RectangularNode.js 9-11); `α` is
the type of numbers. -/
structure RectangularNode (α : Type) where
  height : α
  width : α

/-- A new rectangular node: `height = 20`, `width = 60` (RectangularNode.js
10-11). -/
def RectangularNode.initial [OfNat α 20] [OfNat α 60] : RectangularNode α :=
  { height := 20, width := 60 }

/-- The setter `height(p)` (RectangularNode.js 15-19). -/
def RectangularNode.setHeight (n : RectangularNode α) (p : α) : RectangularNode α :=
  { n with height := p }

/-- The setter `width(p)` (RectangularNode.js 21-25). -/
def RectangularNode.setWidth (n : RectangularNode α) (p : α) : RectangularNode α :=
  { n with width := p }

/-- `actualRadius()` of a rectangular node (RectangularNode.js 30-32). -/
def RectangularNode.actualRadius (n : RectangularNode α) : α := n.width

/-- `textWidth()` of a rectangular node (RectangularNode.js 38-40). -/
def RectangularNode.textWidth (n : RectangularNode α) : α := n.width

/-- The shape of a node: rectangular, or one of the other node kinds, whose
sources are not available and whose `actualRadius()` is taken as given. -/
inductive NodeShape (α : Type) where
  | rectangular (r : RectangularNode α)
  | other (actualRadius : α)

/-- Dynamic dispatch of `node.actualRadius()`. -/
def NodeShape.actualRadius : NodeShape α → α
  | .rectangular r => r.actualRadius
  | .other radius => radius

/-- What the link callbacks read: the distances of the options object, the
result of `elementTools.isDatatype` on each node and the shape of each node. -/
structure Scene (α : Type) where
  datatypeDistance : α
  classDistance : α
  defaultLinkDistance : α
  isDatatype : NodeId → Bool
  shape : NodeId → NodeShape α

/-- `getVisibleLinkDistance(link)` (graph.js 219-225). -/
def getVisibleLinkDistance (sc : Scene α) (link : Link) : α :=
  if sc.isDatatype link.domain || sc.isDatatype link.range then sc.datatypeDistance
  else sc.classDistance

/-- `calculateLinkDistance(link)` (graph.js 212-217). -/
def calculateLinkDistance [Add α] (sc : Scene α) (link : Link) : α :=
  let distance := getVisibleLinkDistance sc link
  let distance := distance + (sc.shape link.domain).actualRadius
  let distance := distance + (sc.shape link.range).actualRadius
  distance

/-- First argument of `math.calculateIntersection`: a node or a point. -/
inductive Anchor (P : Type) where
  | node (n : NodeId)
  | point (p : P)

/-- The functions of `util/math.js` and the d3 line generator `curveFunction`
used by the link-path callback; their sources are not available, so they are
parameters.  `P` is the type of points. -/
structure MathLib (P α : Type) where
  calculateLoopPath : Link → String
  calculateIntersection : Anchor P → NodeId → α → P
  calculateCurvePoint : P → P → Link → α → P
  curveFunction : List P → String

/-- A call of a geometry function, with its arguments. -/
inductive MathCall (P α : Type) where
  | calculateLoopPath (l : Link)
  | calculateIntersection (source : Anchor P) (target : NodeId) (margin : α)
  | calculateCurvePoint (pathStart pathEnd : P) (l : Link) (ratio : α)

/-- Whether a call is one of the two-point rule (intersection or curve point). -/
def MathCall.isTwoPoint : MathCall P α → Bool
  | .calculateLoopPath _ => false
  | _ => true

/-- Outcome of the link-path callback for one link: the value of the `d`
attribute, the curve point the callback stored on the link (if it stored one)
and the geometry calls it made, in order. -/
structure LinkPath (P α : Type) where
  d : String
  storedCurvePoint : Option P
  calls : List (MathCall P α)

/-- The callback `linkPathElements.attr("d", function (l) ...)` that
`recalculatePositions` runs for every link on every tick (graph.js 54-70). -/
def linkPathCallback [Div α] [OfNat α 1] (m : MathLib P α) (sc : Scene α) (l : Link) :
    LinkPath P α :=
  if l.domain = l.range then
    { d := m.calculateLoopPath l, storedCurvePoint := none, calls := [.calculateLoopPath l] }
  else
    let pathStart := m.calculateIntersection (.node l.range) l.domain 1
    let pathEnd := m.calculateIntersection (.node l.domain) l.range 1
    let linkDistance := getVisibleLinkDistance sc l
    let curvePoint := m.calculateCurvePoint pathStart pathEnd l (linkDistance / sc.defaultLinkDistance)
    { d := m.curveFunction [m.calculateIntersection (.point curvePoint) l.domain 1, curvePoint,
                            m.calculateIntersection (.point curvePoint) l.range 1]
      storedCurvePoint := some curvePoint
      calls := [.calculateIntersection (.node l.range) l.domain 1,
                .calculateIntersection (.node l.domain) l.range 1,
                .calculateCurvePoint pathStart pathEnd l (linkDistance / sc.defaultLinkDistance),
                .calculateIntersection (.point curvePoint) l.domain 1,
                .calculateIntersection (.point curvePoint) l.range 1] }

end Geometry

/-! ## Lemmas on `storeLinksOnNodes` -/

theorem connectedLinks_foldl (node : NodeId) (links acc : List Link) :
    links.foldl
      (fun acc link => if link.domain = node ∨ link.range = node then acc ++ [link] else acc) acc
      = acc ++ links.filter (fun l => decide (l.domain = node ∨ l.range = node)) := by
  induction links generalizing acc with
  | nil => simp
  | cons l ls ih =>
    simp only [List.foldl_cons, ih]
    by_cases h : l.domain = node ∨ l.range = node
    · simp [h, List.filter_cons]
    · simp [h, List.filter_cons]

theorem connectedLinks_eq_filter (node : NodeId) (links : List Link) :
    connectedLinks node links
      = links.filter (fun l => decide (l.domain = node ∨ l.range = node)) := by
  unfold connectedLinks
  rw [connectedLinks_foldl]
  simp

theorem storeLinksOnNodes_nil (heap : Heap) (links : List Link) :
    storeLinksOnNodes heap [] links = heap := rfl

theorem storeLinksOnNodes_cons (heap : Heap) (n : NodeId) (nodes : List NodeId)
    (links : List Link) :
    storeLinksOnNodes heap (n :: nodes) links
      = storeLinksOnNodes (heap.setLinks n (connectedLinks n links)) nodes links := rfl

theorem storeLinksOnNodes_not_mem (heap : Heap) (nodes : List NodeId) (links : List Link)
    (n : NodeId) (h : n ∉ nodes) : storeLinksOnNodes heap nodes links n = heap n := by
  induction nodes generalizing heap with
  | nil => rfl
  | cons m ms ih =>
    rw [storeLinksOnNodes_cons, ih _ (fun hm => h (List.mem_cons_of_mem _ hm))]
    have : n ≠ m := fun e => h (e ▸ List.mem_cons_self _ _)
    simp [Heap.setLinks, this]

theorem storeLinksOnNodes_links_mem (heap : Heap) (nodes : List NodeId) (links : List Link)
    (n : NodeId) (h : n ∈ nodes) :
    (storeLinksOnNodes heap nodes links n).links = connectedLinks n links := by
  induction nodes generalizing heap with
  | nil => cases h
  | cons m ms ih =>
    rw [storeLinksOnNodes_cons]
    by_cases hm : n ∈ ms
    · exact ih _ hm
    · rw [storeLinksOnNodes_not_mem _ _ _ _ hm]
      have : n = m := by
        rcases List.mem_cons.mp h with e | e
        · exact e
        · exact absurd e hm
      simp [Heap.setLinks, this]

theorem storeLinksOnNodes_frozen (heap : Heap) (nodes : List NodeId) (links : List Link)
    (n : NodeId) : (storeLinksOnNodes heap nodes links n).frozen = (heap n).frozen := by
  induction nodes generalizing heap with
  | nil => rfl
  | cons m ms ih =>
    rw [storeLinksOnNodes_cons, ih]
    by_cases e : n = m <;> simp [Heap.setLinks, e]

theorem storeLinksOnNodes_locked (heap : Heap) (nodes : List NodeId) (links : List Link)
    (n : NodeId) : (storeLinksOnNodes heap nodes links n).locked = (heap n).locked := by
  induction nodes generalizing heap with
  | nil => rfl
  | cons m ms ih =>
    rw [storeLinksOnNodes_cons, ih]
    by_cases e : n = m <;> simp [Heap.setLinks, e]


theorem Node.eq_of_fields (a b : Node) (h1 : a.links = b.links) (h2 : a.frozen = b.frozen)
    (h3 : a.locked = b.locked) : a = b := by
  cases a; cases b; simp_all

/-! ## `storeLinksOnNodes`: functional correctness and idempotence -/

/-- C2: `storeLinksOnNodes(nodes, links)` sets the `links()` of every node of
`nodes` to exactly the sublist of `links`, in order, whose domain or range is
that node; every occurrence in `links` is kept once, so a self-referencing link
that occurs once in `links` occurs once in its node's list, and for the nodes
`a`, `b` with the single link `l` from `a` to `b` both lists are `[l]`. -/
theorem storeLinksOnNodes_spec (heap : Heap) (nodes : List NodeId) (links : List Link) :
    (∀ n ∈ nodes, (storeLinksOnNodes heap nodes links n).links
        = links.filter (fun l => decide (l.domain = n ∨ l.range = n)))
    ∧ (∀ n ∈ nodes, ∀ l : Link, (l.domain = n ∨ l.range = n) →
        (storeLinksOnNodes heap nodes links n).links.count l = links.count l)
    ∧ (∀ a ∈ nodes, ∀ l : Link, l.domain = a → l.range = a → links.count l = 1 →
        (storeLinksOnNodes heap nodes links a).links.count l = 1)
    ∧ (∀ a b : NodeId, ∀ l : Link, nodes = [a, b] → links = [l] → l.domain = a → l.range = b →
        (storeLinksOnNodes heap nodes links a).links = [l]
        ∧ (storeLinksOnNodes heap nodes links b).links = [l]) := by
  have key : ∀ n ∈ nodes, (storeLinksOnNodes heap nodes links n).links
      = links.filter (fun l => decide (l.domain = n ∨ l.range = n)) := by
    intro n hn
    rw [storeLinksOnNodes_links_mem _ _ _ _ hn, connectedLinks_eq_filter]
  have cnt : ∀ n ∈ nodes, ∀ l : Link, (l.domain = n ∨ l.range = n) →
      (storeLinksOnNodes heap nodes links n).links.count l = links.count l := by
    intro n hn l hl
    rw [key n hn]
    exact List.count_filter (by simpa using hl)
  refine ⟨key, cnt, ?_, ?_⟩
  · intro a ha l hd _ hc
    rw [cnt a ha l (Or.inl hd), hc]
  · intro a b l hn hl hd hr
    subst hn hl
    rw [key a (by simp), key b (by simp)]
    simp [hd, hr]

/-- Witness of C2: the two-node scenario with one link from node 0 to node 1, and
the one-node scenario with one self-referencing link. -/
theorem storeLinksOnNodes_spec_witness :
    ((storeLinksOnNodes (fun _ => ⟨[], false, false⟩) [0, 1]
        [⟨7, 0, 1, ⟨3, 0, 1, none⟩, none⟩] 0).links = [⟨7, 0, 1, ⟨3, 0, 1, none⟩, none⟩]
      ∧ (storeLinksOnNodes (fun _ => ⟨[], false, false⟩) [0, 1]
        [⟨7, 0, 1, ⟨3, 0, 1, none⟩, none⟩] 1).links = [⟨7, 0, 1, ⟨3, 0, 1, none⟩, none⟩])
    ∧ (storeLinksOnNodes (fun _ => ⟨[], false, false⟩) [0]
        [⟨7, 0, 0, ⟨3, 0, 0, none⟩, none⟩] 0).links.count ⟨7, 0, 0, ⟨3, 0, 0, none⟩, none⟩ = 1 :=
  ⟨(storeLinksOnNodes_spec (fun _ => ⟨[], false, false⟩) [0, 1]
      [⟨7, 0, 1, ⟨3, 0, 1, none⟩, none⟩]).2.2.2 0 1 ⟨7, 0, 1, ⟨3, 0, 1, none⟩, none⟩
      rfl rfl rfl rfl,
   (storeLinksOnNodes_spec (fun _ => ⟨[], false, false⟩) [0]
      [⟨7, 0, 0, ⟨3, 0, 0, none⟩, none⟩]).2.2.1 0 (by decide) ⟨7, 0, 0, ⟨3, 0, 0, none⟩, none⟩
      rfl rfl (by decide)⟩

/-- C10: `storeLinksOnNodes` is idempotent: a second run on the same nodes and
links leaves every node object as the first run left it, and what a node's
`links()` holds after a run does not depend on the state before the run. -/
theorem storeLinksOnNodes_idempotent (heap : Heap) (nodes : List NodeId) (links : List Link) :
    storeLinksOnNodes (storeLinksOnNodes heap nodes links) nodes links
        = storeLinksOnNodes heap nodes links
    ∧ (∀ n : NodeId, (storeLinksOnNodes (storeLinksOnNodes heap nodes links) nodes links n).links
        = (storeLinksOnNodes heap nodes links n).links)
    ∧ (∀ (other : Heap) (n : NodeId), n ∈ nodes →
        (storeLinksOnNodes other nodes links n).links
          = (storeLinksOnNodes heap nodes links n).links) := by
  have full : storeLinksOnNodes (storeLinksOnNodes heap nodes links) nodes links
      = storeLinksOnNodes heap nodes links := by
    funext n
    by_cases hn : n ∈ nodes
    · apply Node.eq_of_fields
      · rw [storeLinksOnNodes_links_mem _ _ _ _ hn, storeLinksOnNodes_links_mem _ _ _ _ hn]
      · rw [storeLinksOnNodes_frozen]
      · rw [storeLinksOnNodes_locked]
    · rw [storeLinksOnNodes_not_mem _ _ _ _ hn]
  refine ⟨full, ?_, ?_⟩
  · intro n
    rw [full]
  · intro other n hn
    rw [storeLinksOnNodes_links_mem _ _ _ _ hn, storeLinksOnNodes_links_mem _ _ _ _ hn]

/-- Witness of C10: two nodes with stale entries, one link between them. -/
theorem storeLinksOnNodes_idempotent_witness :
    (storeLinksOnNodes (fun _ => ⟨[⟨9, 5, 5, ⟨4, 5, 5, none⟩, none⟩], false, false⟩) [0, 1]
        [⟨7, 0, 1, ⟨3, 0, 1, none⟩, none⟩] 1).links
      = (storeLinksOnNodes (fun _ => ⟨[], true, false⟩) [0, 1]
        [⟨7, 0, 1, ⟨3, 0, 1, none⟩, none⟩] 1).links :=
  (storeLinksOnNodes_idempotent (fun _ => ⟨[], true, false⟩) [0, 1]
    [⟨7, 0, 1, ⟨3, 0, 1, none⟩, none⟩]).2.2
    (fun _ => ⟨[⟨9, 5, 5, ⟨4, 5, 5, none⟩, none⟩], false, false⟩) 1 (by decide)

/-! ## Link distance and link path -/

/-- C7: the target distance of a link is the base distance plus the
`actualRadius()` of its domain plus that of its range, the base being
`datatypeDistance` when the domain or the range is a datatype node and
`classDistance` otherwise; the radius of a rectangular node is its current
width, whatever its height, and a self-referencing link adds the radius of its
node twice. -/
theorem calculateLinkDistance_spec {α : Type} [Add α] (sc : Scene α) (link : Link) :
    calculateLinkDistance sc link
        = (if sc.isDatatype link.domain = true ∨ sc.isDatatype link.range = true
            then sc.datatypeDistance else sc.classDistance)
          + (sc.shape link.domain).actualRadius + (sc.shape link.range).actualRadius
    ∧ (∀ r : RectangularNode α, (NodeShape.rectangular r).actualRadius = r.width
        ∧ (∀ w : α, (NodeShape.rectangular (r.setWidth w)).actualRadius = w)
        ∧ (∀ h : α, (NodeShape.rectangular (r.setHeight h)).actualRadius = r.width))
    ∧ (link.domain = link.range →
        calculateLinkDistance sc link
          = (if sc.isDatatype link.domain = true then sc.datatypeDistance else sc.classDistance)
            + (sc.shape link.domain).actualRadius + (sc.shape link.domain).actualRadius) := by
  refine ⟨?_, ?_, ?_⟩
  · unfold calculateLinkDistance getVisibleLinkDistance
    simp only [Bool.or_eq_true]
  · intro r
    exact ⟨rfl, fun _ => rfl, fun _ => rfl⟩
  · intro h
    unfold calculateLinkDistance getVisibleLinkDistance
    simp only [← h, Bool.or_self]

/-- Witness of C7: a self-referencing link on a new rectangular class node (width
60, height 20), class distance 200: the distance is 200 + 60 + 60. -/
theorem calculateLinkDistance_spec_witness :
    calculateLinkDistance
        (⟨120, 200, 160, fun _ => false, fun _ => .rectangular RectangularNode.initial⟩ :
          Scene Int)
        ⟨7, 0, 0, ⟨3, 0, 0, none⟩, none⟩
      = (if (fun _ : NodeId => false) 0 = true then (120 : Int) else 200) + 60 + 60 :=
  (calculateLinkDistance_spec
    (⟨120, 200, 160, fun _ => false, fun _ => .rectangular RectangularNode.initial⟩ : Scene Int)
    ⟨7, 0, 0, ⟨3, 0, 0, none⟩, none⟩).2.2 rfl

/-- C9: the link-path callback of `recalculatePositions` uses the loop-path rule
exactly when the domain and the range of the link are the same node; such a link
makes no intersection or curve-point call.  Every other link gets the two
intersections of its endpoints, then the curve point with ratio visible link
distance over `defaultLinkDistance`, which is stored as the link's curve point
and from which the path is drawn. -/
theorem linkPathCallback_spec {α P : Type} [Div α] [OfNat α 1] (m : MathLib P α)
    (sc : Scene α) (l : Link) :
    (l.domain = l.range ↔ (linkPathCallback m sc l).calls = [.calculateLoopPath l])
    ∧ (l.domain = l.range →
        (linkPathCallback m sc l).d = m.calculateLoopPath l
        ∧ (∀ c ∈ (linkPathCallback m sc l).calls, c.isTwoPoint = false))
    ∧ (l.domain ≠ l.range →
        (linkPathCallback m sc l).calls
            = [.calculateIntersection (.node l.range) l.domain 1,
               .calculateIntersection (.node l.domain) l.range 1,
               .calculateCurvePoint (m.calculateIntersection (.node l.range) l.domain 1)
                 (m.calculateIntersection (.node l.domain) l.range 1) l
                 (getVisibleLinkDistance sc l / sc.defaultLinkDistance),
               .calculateIntersection (.point (m.calculateCurvePoint
                 (m.calculateIntersection (.node l.range) l.domain 1)
                 (m.calculateIntersection (.node l.domain) l.range 1) l
                 (getVisibleLinkDistance sc l / sc.defaultLinkDistance))) l.domain 1,
               .calculateIntersection (.point (m.calculateCurvePoint
                 (m.calculateIntersection (.node l.range) l.domain 1)
                 (m.calculateIntersection (.node l.domain) l.range 1) l
                 (getVisibleLinkDistance sc l / sc.defaultLinkDistance))) l.range 1]
        ∧ (linkPathCallback m sc l).storedCurvePoint
            = some (m.calculateCurvePoint (m.calculateIntersection (.node l.range) l.domain 1)
                (m.calculateIntersection (.node l.domain) l.range 1) l
                (getVisibleLinkDistance sc l / sc.defaultLinkDistance))
        ∧ (linkPathCallback m sc l).d
            = m.curveFunction
                [m.calculateIntersection (.point (m.calculateCurvePoint
                   (m.calculateIntersection (.node l.range) l.domain 1)
                   (m.calculateIntersection (.node l.domain) l.range 1) l
                   (getVisibleLinkDistance sc l / sc.defaultLinkDistance))) l.domain 1,
                 m.calculateCurvePoint (m.calculateIntersection (.node l.range) l.domain 1)
                   (m.calculateIntersection (.node l.domain) l.range 1) l
                   (getVisibleLinkDistance sc l / sc.defaultLinkDistance),
                 m.calculateIntersection (.point (m.calculateCurvePoint
                   (m.calculateIntersection (.node l.range) l.domain 1)
                   (m.calculateIntersection (.node l.domain) l.range 1) l
                   (getVisibleLinkDistance sc l / sc.defaultLinkDistance))) l.range 1]
        ∧ (∀ c ∈ (linkPathCallback m sc l).calls, c ≠ .calculateLoopPath l)) := by
  refine ⟨⟨?_, ?_⟩, ?_, ?_⟩
  · intro h
    simp [linkPathCallback, h]
  · intro h
    by_contra hne
    simp [linkPathCallback, hne] at h
  · intro h
    simp [linkPathCallback, h, MathCall.isTwoPoint]
  · intro h
    simp [linkPathCallback, h]

/-- Witness of C9: points are pairs of integers and numbers are rationals; the
link from node 0 to node 1 gets its curve point from the two-point rule with
ratio 200 / 160, and the self-referencing link on node 0 gets the loop path. -/
theorem linkPathCallback_spec_witness :
    ((0 : NodeId) ≠ 1
      ∧ (linkPathCallback
          (⟨fun _ => "loop", fun _ n _ => (n, 0), fun a b _ _ => (a.1 + b.1, 1),
            fun _ => "curve"⟩ : MathLib (Nat × Nat) Rat)
          ⟨120, 200, 160, fun _ => false, fun _ => .other 50⟩
          ⟨7, 0, 1, ⟨3, 0, 1, none⟩, none⟩).storedCurvePoint
        = some ((fun (a b : Nat × Nat) (_ : Link) (_ : Rat) => (a.1 + b.1, 1)) (0, 0) (1, 0)
            ⟨7, 0, 1, ⟨3, 0, 1, none⟩, none⟩
            (getVisibleLinkDistance
              (⟨120, 200, 160, fun _ => false, fun _ => .other 50⟩ : Scene Rat)
              ⟨7, 0, 1, ⟨3, 0, 1, none⟩, none⟩ / 160)))
    ∧ (linkPathCallback
          (⟨fun _ => "loop", fun _ n _ => (n, 0), fun a b _ _ => (a.1 + b.1, 1),
            fun _ => "curve"⟩ : MathLib (Nat × Nat) Rat)
          ⟨120, 200, 160, fun _ => false, fun _ => .other 50⟩
          ⟨8, 0, 0, ⟨4, 0, 0, none⟩, none⟩).d = "loop" :=
  ⟨⟨by decide,
    ((linkPathCallback_spec
      (⟨fun _ => "loop", fun _ n _ => (n, 0), fun a b _ _ => (a.1 + b.1, 1),
        fun _ => "curve"⟩ : MathLib (Nat × Nat) Rat)
      ⟨120, 200, 160, fun _ => false, fun _ => .other 50⟩
      ⟨7, 0, 1, ⟨3, 0, 1, none⟩, none⟩).2.2 (by decide)).2.1⟩,
   ((linkPathCallback_spec
      (⟨fun _ => "loop", fun _ n _ => (n, 0), fun a b _ _ => (a.1 + b.1, 1),
        fun _ => "curve"⟩ : MathLib (Nat × Nat) Rat)
      ⟨120, 200, 160, fun _ => false, fun _ => .other 50⟩
      ⟨8, 0, 0, ⟨4, 0, 0, none⟩, none⟩).2.1 rfl).1⟩

/-! ## Lemmas on the link builder -/

theorem groupPropertiesToLinks_endpoints (ps : List Property) (consumed : List Nat) (uid : Nat) :
    ∀ l ∈ groupPropertiesToLinks ps consumed uid,
      ∃ p ∈ ps, l.property = p ∧ l.domain = p.domain ∧ l.range = p.range := by
  induction ps generalizing consumed uid with
  | nil => intro l hl; simp [groupPropertiesToLinks] at hl
  | cons p ps ih =>
    intro l hl
    unfold groupPropertiesToLinks at hl
    split at hl
    · obtain ⟨q, hq, h⟩ := ih _ _ l hl
      exact ⟨q, List.mem_cons_of_mem _ hq, h⟩
    · rcases List.mem_cons.mp hl with e | hl
      · exact ⟨p, List.mem_cons_self _ _, by simp [e]⟩
      · obtain ⟨q, hq, h⟩ := ih _ _ l hl
        exact ⟨q, List.mem_cons_of_mem _ hq, h⟩

theorem groupPropertiesToLinks_uid (ps : List Property) (consumed : List Nat) (uid : Nat) :
    ∀ l ∈ groupPropertiesToLinks ps consumed uid,
      uid ≤ l.uid ∧ l.uid < uid + (groupPropertiesToLinks ps consumed uid).length := by
  induction ps generalizing consumed uid with
  | nil => intro l hl; simp [groupPropertiesToLinks] at hl
  | cons p ps ih =>
    intro l hl
    unfold groupPropertiesToLinks at hl ⊢
    split at hl
    · rename_i hc
      simp only [hc, if_true]
      exact ih _ _ l hl
    · rename_i hc
      simp only [hc, if_false, List.length_cons]
      rcases List.mem_cons.mp hl with e | hl
      · subst e
        simp
      · have := ih _ _ l hl
        omega

theorem createLinks_endpoints (uid : Nat) (ps : List Property) :
    ∀ l ∈ createLinks uid ps, ∃ p ∈ ps, l.property = p ∧ l.domain = p.domain ∧ l.range = p.range :=
  groupPropertiesToLinks_endpoints ps [] uid

theorem createLinks_uid (uid : Nat) (ps : List Property) :
    ∀ l ∈ createLinks uid ps, uid ≤ l.uid ∧ l.uid < uid + (createLinks uid ps).length :=
  groupPropertiesToLinks_uid ps [] uid

theorem groupPropertiesToLinks_complete (ps : List Property) (consumed : List Nat) (uid : Nat)
    (p : Property) (hp : p ∈ ps) (hc : p.id ∉ consumed)
    (hinv : ∀ q ∈ ps, q.inverse ≠ some p.id) :
    ∃ l ∈ groupPropertiesToLinks ps consumed uid,
      l.property = p ∧ l.domain = p.domain ∧ l.range = p.range := by
  induction ps generalizing consumed uid with
  | nil => cases hp
  | cons q qs ih =>
    have hinv' : ∀ r ∈ qs, r.inverse ≠ some p.id :=
      fun r hr => hinv r (List.mem_cons_of_mem _ hr)
    unfold groupPropertiesToLinks
    by_cases hq : q.id ∈ consumed
    · simp only [hq, if_true]
      rcases List.mem_cons.mp hp with e | hmem
      · exact absurd (e ▸ hq) hc
      · exact ih consumed uid hmem hc hinv'
    · simp only [hq, if_false]
      rcases List.mem_cons.mp hp with e | hmem
      · subst e
        exact ⟨_, List.mem_cons_self _ _, rfl, rfl, rfl⟩
      · have hc' : p.id ∉ q.inverse.toList ++ consumed := by
          intro hin
          rcases List.mem_append.mp hin with h1 | h2
          · have hne := hinv q (List.mem_cons_self _ _)
            cases hqi : q.inverse with
            | none => rw [hqi] at h1; simp at h1
            | some k =>
              rw [hqi] at h1 hne
              simp at h1
              exact hne (by rw [h1])
          · exact hc h2
        obtain ⟨l, hl, h⟩ := ih _ (uid + 1) hmem hc' hinv'
        exact ⟨l, List.mem_cons_of_mem _ hl, h⟩

theorem createLinks_complete (uid : Nat) (ps : List Property) (p : Property) (hp : p ∈ ps)
    (hinv : ∀ q ∈ ps, q.inverse ≠ some p.id) :
    ∃ l ∈ createLinks uid ps, l.property = p ∧ l.domain = p.domain ∧ l.range = p.range :=
  groupPropertiesToLinks_complete ps [] uid p hp (by simp) hinv

/-! ## Lemmas on the filter loop -/

theorem storeLinksOnNodes_incident (heap : Heap) (nodes : List NodeId) (links : List Link)
    (n : NodeId) (h : n ∈ nodes) :
    (storeLinksOnNodes heap nodes links n).links = incidentLinks n links := by
  rw [storeLinksOnNodes_links_mem _ _ _ _ h, connectedLinks_eq_filter]
  rfl

theorem runFilterModules_frozen (ms : List FilterModule) (st : RefreshLoop) (n : NodeId) :
    ((runFilterModules ms st).heap n).frozen = (st.heap n).frozen := by
  induction ms generalizing st with
  | nil => rfl
  | cons m ms ih =>
    rw [runFilterModules, ih]
    exact storeLinksOnNodes_frozen _ _ _ _

theorem runFilterModules_locked (ms : List FilterModule) (st : RefreshLoop) (n : NodeId) :
    ((runFilterModules ms st).heap n).locked = (st.heap n).locked := by
  induction ms generalizing st with
  | nil => rfl
  | cons m ms ih =>
    rw [runFilterModules, ih]
    exact storeLinksOnNodes_locked _ _ _ _

theorem runFilterModules_nextUid (ms : List FilterModule) (st : RefreshLoop) :
    st.nextUid ≤ (runFilterModules ms st).nextUid := by
  induction ms generalizing st with
  | nil => exact Nat.le_refl _
  | cons m ms ih =>
    rw [runFilterModules]
    exact Nat.le_trans (Nat.le_add_right _ _) (ih (filterStep st m))

/-- The filter loop appends one call per module; the calls form a chain, and at
each call the node objects of the input carry the links freshly built from the
input properties. -/
theorem runFilterModules_trace (ms : List FilterModule) (st : RefreshLoop) :
    ∃ cs, (runFilterModules ms st).filterCalls = st.filterCalls ++ cs
      ∧ FilterChainTrace ms st.preprocessedNodes st.preprocessedProperties cs
          (runFilterModules ms st).preprocessedNodes
          (runFilterModules ms st).preprocessedProperties
      ∧ ∀ c ∈ cs, (∃ u, st.nextUid ≤ u ∧ c.links = createLinks u c.properties
            ∧ u + c.links.length ≤ (runFilterModules ms st).nextUid)
          ∧ ∀ n ∈ c.nodes, (c.heap n).links = incidentLinks n c.links := by
  induction ms generalizing st with
  | nil => exact ⟨[], by simp [runFilterModules], ⟨rfl, rfl, rfl⟩, by simp⟩
  | cons m ms ih =>
    obtain ⟨cs, h1, h2, h3⟩ := ih (filterStep st m)
    refine ⟨filterCall st m :: cs, ?_, ⟨filterCall st m, cs, rfl, rfl, rfl, rfl, h2⟩, ?_⟩
    · rw [runFilterModules, h1]
      simp [filterStep]
    · intro c hc
      rcases List.mem_cons.mp hc with e | hc
      · subst e
        refine ⟨⟨st.nextUid, Nat.le_refl _, rfl, ?_⟩, ?_⟩
        · rw [runFilterModules]
          exact runFilterModules_nextUid ms (filterStep st m)
        · intro n hn
          exact storeLinksOnNodes_incident _ _ _ _ hn
      · obtain ⟨⟨u, hu1, hu2, hu3⟩, h4⟩ := h3 c hc
        refine ⟨⟨u, ?_, hu2, ?_⟩, h4⟩
        · exact Nat.le_trans (Nat.le_add_right _ _) hu1
        · rw [runFilterModules]
          exact hu3

/-! ## Index form of a chain trace -/

theorem FilterChainTrace.length_eq {ms : List FilterModule} {ns : List NodeId}
    {ps : List Property} {cs : List FilterCall} {outN : List NodeId} {outP : List Property}
    (h : FilterChainTrace ms ns ps cs outN outP) : cs.length = ms.length := by
  induction ms generalizing ns ps cs with
  | nil => obtain ⟨h, -, -⟩ := h; simp [h]
  | cons m ms ih =>
    obtain ⟨c, cs', h, -, -, -, ht⟩ := h
    simp [h, ih ht]

theorem FilterChainTrace.module_at {ms : List FilterModule} {ns : List NodeId}
    {ps : List Property} {cs : List FilterCall} {outN : List NodeId} {outP : List Property}
    (h : FilterChainTrace ms ns ps cs outN outP) :
    ∀ (i : Nat) (c : FilterCall), cs[i]? = some c →
      ∃ m : FilterModule, ms[i]? = some m
        ∧ m c.heap c.nodes c.properties = (c.filteredNodes, c.filteredProperties) := by
  induction ms generalizing ns ps cs with
  | nil => obtain ⟨h, -, -⟩ := h; intro i c hc; simp [h] at hc
  | cons m ms ih =>
    obtain ⟨c0, cs', h, hn, hp, hm, ht⟩ := h
    intro i c hc
    subst h
    cases i with
    | zero =>
      simp at hc
      subst hc
      exact ⟨m, by simp, by rw [hn, hp]; exact hm⟩
    | succ i =>
      simp at hc
      simpa using ih ht i c hc

theorem FilterChainTrace.head_input {ms : List FilterModule} {ns : List NodeId}
    {ps : List Property} {cs : List FilterCall} {outN : List NodeId} {outP : List Property}
    (h : FilterChainTrace ms ns ps cs outN outP) :
    ∀ c : FilterCall, cs[0]? = some c → c.nodes = ns ∧ c.properties = ps := by
  cases ms with
  | nil => obtain ⟨h, -, -⟩ := h; intro c hc; simp [h] at hc
  | cons m ms =>
    obtain ⟨c0, cs', h, hn, hp, -, -⟩ := h
    intro c hc
    subst h
    simp at hc
    subst hc
    exact ⟨hn, hp⟩

theorem FilterChainTrace.succ_input {ms : List FilterModule} {ns : List NodeId}
    {ps : List Property} {cs : List FilterCall} {outN : List NodeId} {outP : List Property}
    (h : FilterChainTrace ms ns ps cs outN outP) :
    ∀ (i : Nat) (c d : FilterCall), cs[i]? = some c → cs[i + 1]? = some d →
      d.nodes = c.filteredNodes ∧ d.properties = c.filteredProperties := by
  induction ms generalizing ns ps cs with
  | nil => obtain ⟨h, -, -⟩ := h; intro i c d hc; simp [h] at hc
  | cons m ms ih =>
    obtain ⟨c0, cs', h, -, -, -, ht⟩ := h
    intro i c d hc hd
    subst h
    cases i with
    | zero =>
      simp at hc hd
      subst hc
      exact ht.head_input d hd
    | succ i =>
      simp at hc hd
      exact ih ht i c d hc hd

theorem FilterChainTrace.output {ms : List FilterModule} {ns : List NodeId}
    {ps : List Property} {cs : List FilterCall} {outN : List NodeId} {outP : List Property}
    (h : FilterChainTrace ms ns ps cs outN outP) :
    outN = (cs.getLast?.map FilterCall.filteredNodes).getD ns
      ∧ outP = (cs.getLast?.map FilterCall.filteredProperties).getD ps := by
  induction ms generalizing ns ps cs with
  | nil => obtain ⟨h, h1, h2⟩ := h; simp [h, h1, h2]
  | cons m ms ih =>
    obtain ⟨c0, cs', h, -, -, -, ht⟩ := h
    subst h
    have := ih ht
    cases cs' with
    | nil => simpa using this
    | cons d ds =>
      rw [List.getLast?_cons_cons]
      simpa using this

/-! ## The data step `refreshGraphData` -/

/-- With the raw data loaded, `refreshGraphData` returns, and the new state is
the one reached by the filter loop followed by the final link pass. -/
theorem refreshGraphData_loaded (env : Env) (g : Graph) (ns : List NodeId) (ps : List Property)
    (hn : g.unfilteredNodes = some ns) (hp : g.unfilteredProperties = some ps) :
    ∃ st : RefreshLoop,
      st = runFilterModules env.filterModules
        { heap := g.heap, nextUid := g.nextUid, links := g.links, preprocessedNodes := ns,
          preprocessedProperties := ps, filterCalls := [] }
      ∧ refreshGraphData env g = .returned
        { g with nodes := some st.preprocessedNodes
                 properties := some st.preprocessedProperties
                 links := some (createLinks st.nextUid st.preprocessedProperties)
                 heap := storeLinksOnNodes st.heap st.preprocessedNodes
                   (createLinks st.nextUid st.preprocessedProperties)
                 nextUid := st.nextUid + (createLinks st.nextUid st.preprocessedProperties).length
                 forceNodes := st.preprocessedNodes
                 forceLinks := createLinks st.nextUid st.preprocessedProperties
                 filterCalls := st.filterCalls } () := by
  refine ⟨_, rfl, ?_⟩
  simp only [refreshGraphData, hn, hp]

/-- C1 (counterexample): nodes 0 and 1 with one property from 0 to 1, and a
filter module that hides node 1 but keeps the property: `refreshGraphData`
returns, the displayed nodes are `[0]`, and the rendered link list holds a link
whose range, node 1, is not displayed. -/
theorem refreshGraphData_dangling_link :
    (refreshGraphData hidingEnv loadedGraph).isReturned = true
    ∧ (refreshGraphData hidingEnv loadedGraph).state.nodes = some [0]
    ∧ (refreshGraphData hidingEnv loadedGraph).state.links
        = some [{ uid := 1, domain := 0, range := 1, property := exampleProperty, inverse := none }]
    ∧ (1 : NodeId) ∉ [0] := by
  refine ⟨rfl, rfl, rfl, by decide⟩

/-- C1 (amended): with the raw data loaded, `refreshGraphData` returns with the
displayed nodes and properties being the output of the last filter module, and
it drops no link: the rendered link list, also handed to the force layout, is
exactly `createLinks` of the displayed properties.  Every rendered link has the
domain and the range of a displayed property, and every displayed property that
is not the inverse of a displayed property has a rendered link with its domain
and range.  So every rendered link has both ends among the displayed nodes as
soon as every displayed property has, while a displayed property that is not an
inverse and has an end outside the displayed nodes gives a rendered link with an
end outside the displayed nodes. -/
theorem refreshGraphData_link_endpoints (env : Env) (g : Graph) (ns : List NodeId)
    (ps : List Property) (hn : g.unfilteredNodes = some ns)
    (hp : g.unfilteredProperties = some ps) :
    ∃ (g' : Graph) (nodes : List NodeId) (properties : List Property) (links : List Link),
      refreshGraphData env g = .returned g' ()
      ∧ g'.nodes = some nodes ∧ g'.properties = some properties ∧ g'.links = some links
      ∧ nodes = (g'.filterCalls.getLast?.map FilterCall.filteredNodes).getD ns
      ∧ properties = (g'.filterCalls.getLast?.map FilterCall.filteredProperties).getD ps
      ∧ (∃ u : Nat, links = createLinks u properties)
      ∧ g'.forceLinks = links
      ∧ (∀ l ∈ links, ∃ p ∈ properties, l.domain = p.domain ∧ l.range = p.range)
      ∧ (∀ p ∈ properties, (∀ q ∈ properties, q.inverse ≠ some p.id) →
          ∃ l ∈ links, l.property = p ∧ l.domain = p.domain ∧ l.range = p.range)
      ∧ ((∀ p ∈ properties, p.domain ∈ nodes ∧ p.range ∈ nodes) →
          ∀ l ∈ links, l.domain ∈ nodes ∧ l.range ∈ nodes)
      ∧ (∀ p ∈ properties, (∀ q ∈ properties, q.inverse ≠ some p.id) →
          (p.domain ∉ nodes ∨ p.range ∉ nodes) →
          ∃ l ∈ links, l.domain ∉ nodes ∨ l.range ∉ nodes) := by
  obtain ⟨st, hst, hr⟩ := refreshGraphData_loaded env g ns ps hn hp
  obtain ⟨cs, h1, h2, -⟩ := runFilterModules_trace env.filterModules
    { heap := g.heap, nextUid := g.nextUid, links := g.links, preprocessedNodes := ns,
      preprocessedProperties := ps, filterCalls := [] }
  rw [← hst] at h1 h2
  simp only [List.nil_append] at h1
  have hout := h2.output
  have hend : ∀ l ∈ createLinks st.nextUid st.preprocessedProperties,
      ∃ p ∈ st.preprocessedProperties, l.domain = p.domain ∧ l.range = p.range := by
    intro l hl
    obtain ⟨p, hp, -, hd, hr⟩ := createLinks_endpoints _ _ l hl
    exact ⟨p, hp, hd, hr⟩
  have hcomp : ∀ p ∈ st.preprocessedProperties,
      (∀ q ∈ st.preprocessedProperties, q.inverse ≠ some p.id) →
      ∃ l ∈ createLinks st.nextUid st.preprocessedProperties,
        l.property = p ∧ l.domain = p.domain ∧ l.range = p.range :=
    fun p hp hinv => createLinks_complete st.nextUid _ p hp hinv
  refine ⟨_, _, _, _, hr, rfl, rfl, rfl, ?_, ?_, ⟨st.nextUid, rfl⟩, rfl, hend, hcomp, ?_, ?_⟩
  · simpa [h1] using hout.1
  · simpa [h1] using hout.2
  · intro hall l hl
    obtain ⟨p, hp, hd, hr⟩ := hend l hl
    rw [hd, hr]
    exact hall p hp
  · intro p hp hinv hout
    obtain ⟨l, hl, -, hd, hr⟩ := hcomp p hp hinv
    refine ⟨l, hl, ?_⟩
    rw [hd, hr]
    exact hout

/-- Witness of C1 (amended): three nodes, a property from 0 to 1 and one from 0 to
2, and a filter module that hides node 1 together with the property that ends
there.  The displayed nodes are `[0, 2]`, the displayed properties are the
property from 0 to 2, every displayed property has both ends displayed, and so
has every rendered link. -/
theorem refreshGraphData_link_endpoints_witness :
    consistentGraph.unfilteredNodes = some [0, 1, 2]
    ∧ consistentGraph.unfilteredProperties = some [exampleProperty, secondProperty]
    ∧ ∃ (g' : Graph) (links : List Link),
      refreshGraphData consistentEnv consistentGraph = .returned g' ()
      ∧ g'.nodes = some [0, 2] ∧ g'.properties = some [secondProperty]
      ∧ g'.links = some links
      ∧ (∀ p ∈ [secondProperty], p.domain ∈ [0, 2] ∧ p.range ∈ [0, 2])
      ∧ (∃ u : Nat, links = createLinks u [secondProperty])
      ∧ (∀ l ∈ links, l.domain ∈ [0, 2] ∧ l.range ∈ [0, 2]) := by
  obtain ⟨g', nodes, properties, links, hr, hN, hP, hL, -, -, hcl, -, -, -, himp, -⟩ :=
    refreshGraphData_link_endpoints consistentEnv consistentGraph [0, 1, 2]
      [exampleProperty, secondProperty] rfl rfl
  have hstate : (refreshGraphData consistentEnv consistentGraph).state = g' := by
    rw [hr]
    rfl
  have hnodes : nodes = [0, 2] := by
    have h : g'.nodes = some [0, 2] := by rw [← hstate]; rfl
    rw [hN] at h
    exact Option.some.inj h
  have hprops : properties = [secondProperty] := by
    have h : g'.properties = some [secondProperty] := by rw [← hstate]; rfl
    rw [hP] at h
    exact Option.some.inj h
  subst hnodes hprops
  have hcons : ∀ p ∈ [secondProperty], p.domain ∈ [0, 2] ∧ p.range ∈ [0, 2] := by decide
  exact ⟨rfl, rfl, g', links, hr, hN, hP, hL, hcons, hcl, himp hcons⟩

/-- C3: with the raw data loaded, `refreshGraphData` returns after calling the
filter of every configured module once, in configured order: the first call
receives the raw nodes and properties, every later call receives what the
previous module delivered, and the displayed nodes and properties are what the
last module delivered; with an empty chain they are the raw nodes and properties
unchanged. -/
theorem refreshGraphData_filter_chain (env : Env) (g : Graph) (ns : List NodeId)
    (ps : List Property) (hn : g.unfilteredNodes = some ns)
    (hp : g.unfilteredProperties = some ps) :
    ∃ g' : Graph, refreshGraphData env g = .returned g' ()
      ∧ g'.filterCalls.length = env.filterModules.length
      ∧ (∀ (i : Nat) (c : FilterCall), g'.filterCalls[i]? = some c →
          ∃ m : FilterModule, env.filterModules[i]? = some m
            ∧ m c.heap c.nodes c.properties = (c.filteredNodes, c.filteredProperties))
      ∧ (∀ c : FilterCall, g'.filterCalls[0]? = some c → c.nodes = ns ∧ c.properties = ps)
      ∧ (∀ (i : Nat) (c d : FilterCall), g'.filterCalls[i]? = some c →
          g'.filterCalls[i + 1]? = some d →
          d.nodes = c.filteredNodes ∧ d.properties = c.filteredProperties)
      ∧ g'.nodes = some ((g'.filterCalls.getLast?.map FilterCall.filteredNodes).getD ns)
      ∧ g'.properties
          = some ((g'.filterCalls.getLast?.map FilterCall.filteredProperties).getD ps)
      ∧ (env.filterModules = [] → g'.nodes = some ns ∧ g'.properties = some ps) := by
  obtain ⟨st, hst, hr⟩ := refreshGraphData_loaded env g ns ps hn hp
  obtain ⟨cs, h1, h2, -⟩ := runFilterModules_trace env.filterModules
    { heap := g.heap, nextUid := g.nextUid, links := g.links, preprocessedNodes := ns,
      preprocessedProperties := ps, filterCalls := [] }
  rw [← hst] at h1 h2
  simp only [List.nil_append] at h1
  have hout := h2.output
  refine ⟨_, hr, ?_, ?_, ?_, ?_, ?_, ?_, ?_⟩
  · simpa [h1] using h2.length_eq
  · simpa [h1] using h2.module_at
  · simpa [h1] using h2.head_input
  · simpa [h1] using h2.succ_input
  · simp only [h1]
    rw [← hout.1]
  · simp only [h1]
    rw [← hout.2]
  · intro hnil
    rw [hnil] at hst
    simp [hst, runFilterModules]

/-- Witness of C3: the example data with the module that hides node 1. -/
theorem refreshGraphData_filter_chain_witness :
    loadedGraph.unfilteredNodes = some [0, 1]
    ∧ loadedGraph.unfilteredProperties = some [exampleProperty]
    ∧ ∃ g' : Graph, refreshGraphData hidingEnv loadedGraph = .returned g' ()
      ∧ g'.filterCalls.length = hidingEnv.filterModules.length
      ∧ (∀ (i : Nat) (c : FilterCall), g'.filterCalls[i]? = some c →
          ∃ m : FilterModule, hidingEnv.filterModules[i]? = some m
            ∧ m c.heap c.nodes c.properties = (c.filteredNodes, c.filteredProperties))
      ∧ (∀ c : FilterCall, g'.filterCalls[0]? = some c →
          c.nodes = [0, 1] ∧ c.properties = [exampleProperty])
      ∧ (∀ (i : Nat) (c d : FilterCall), g'.filterCalls[i]? = some c →
          g'.filterCalls[i + 1]? = some d →
          d.nodes = c.filteredNodes ∧ d.properties = c.filteredProperties)
      ∧ g'.nodes = some ((g'.filterCalls.getLast?.map FilterCall.filteredNodes).getD [0, 1])
      ∧ g'.properties = some
          ((g'.filterCalls.getLast?.map FilterCall.filteredProperties).getD [exampleProperty])
      ∧ (hidingEnv.filterModules = [] →
          g'.nodes = some [0, 1] ∧ g'.properties = some [exampleProperty]) :=
  ⟨rfl, rfl, refreshGraphData_filter_chain hidingEnv loadedGraph [0, 1] [exampleProperty] rfl rfl⟩

/-- C5: with the raw data loaded, `refreshGraphData` returns with the rendered
link list being `createLinks` of the fully filtered properties (the list also
handed to the force layout), and `links()` of every displayed node is exactly
the sublist of that list whose domain or range is the node; no link object built
for one of the filter calls is left on a displayed node. -/
theorem refreshGraphData_node_links (env : Env) (g : Graph) (ns : List NodeId)
    (ps : List Property) (hn : g.unfilteredNodes = some ns)
    (hp : g.unfilteredProperties = some ps) :
    ∃ (g' : Graph) (nodes : List NodeId) (properties : List Property) (links : List Link),
      refreshGraphData env g = .returned g' ()
      ∧ g'.nodes = some nodes ∧ g'.properties = some properties ∧ g'.links = some links
      ∧ g'.forceNodes = nodes ∧ g'.forceLinks = links
      ∧ (∃ u : Nat, links = createLinks u properties)
      ∧ (∀ n ∈ nodes, (g'.heap n).links
          = links.filter (fun l => decide (l.domain = n ∨ l.range = n)))
      ∧ (∀ n ∈ nodes, ∀ c ∈ g'.filterCalls, ∀ l ∈ c.links, l ∉ (g'.heap n).links) := by
  obtain ⟨st, hst, hr⟩ := refreshGraphData_loaded env g ns ps hn hp
  obtain ⟨cs, h1, -, h3⟩ := runFilterModules_trace env.filterModules
    { heap := g.heap, nextUid := g.nextUid, links := g.links, preprocessedNodes := ns,
      preprocessedProperties := ps, filterCalls := [] }
  rw [← hst] at h1 h3
  simp only [List.nil_append] at h1
  have hlinks : ∀ n ∈ st.preprocessedNodes,
      (storeLinksOnNodes st.heap st.preprocessedNodes
        (createLinks st.nextUid st.preprocessedProperties) n).links
        = (createLinks st.nextUid st.preprocessedProperties).filter
            (fun l => decide (l.domain = n ∨ l.range = n)) :=
    fun n hmem => storeLinksOnNodes_incident _ _ _ n hmem
  refine ⟨_, _, _, _, hr, rfl, rfl, rfl, rfl, rfl, ⟨st.nextUid, rfl⟩, hlinks, ?_⟩
  intro n hmem c hc l hl hcontra
  simp only [h1] at hc
  obtain ⟨⟨u, -, hu2, hu3⟩, -⟩ := h3 c hc
  have hold := createLinks_uid u c.properties l (hu2 ▸ hl)
  rw [← hu2] at hold
  have hnew := createLinks_uid st.nextUid st.preprocessedProperties l
    (List.mem_of_mem_filter (hlinks n hmem ▸ hcontra))
  omega

/-- Witness of C5: the example data with the module that hides node 1. -/
theorem refreshGraphData_node_links_witness :
    loadedGraph.unfilteredNodes = some [0, 1]
    ∧ loadedGraph.unfilteredProperties = some [exampleProperty]
    ∧ ∃ (g' : Graph) (nodes : List NodeId) (properties : List Property) (links : List Link),
      refreshGraphData hidingEnv loadedGraph = .returned g' ()
      ∧ g'.nodes = some nodes ∧ g'.properties = some properties ∧ g'.links = some links
      ∧ g'.forceNodes = nodes ∧ g'.forceLinks = links
      ∧ (∃ u : Nat, links = createLinks u properties)
      ∧ (∀ n ∈ nodes, (g'.heap n).links
          = links.filter (fun l => decide (l.domain = n ∨ l.range = n)))
      ∧ (∀ n ∈ nodes, ∀ c ∈ g'.filterCalls, ∀ l ∈ c.links, l ∉ (g'.heap n).links) :=
  ⟨rfl, rfl, refreshGraphData_node_links hidingEnv loadedGraph [0, 1] [exampleProperty] rfl rfl⟩

/-- C6: with the raw data loaded, `refreshGraphData` returns, and at every filter
call the input is the output of the previous module (the raw data for the first
call), the `links` variable is `createLinks` of the input properties, and
`links()` of every input node is exactly the sublist of those links whose domain
or range is the node. -/
theorem refreshGraphData_prefilter_links (env : Env) (g : Graph) (ns : List NodeId)
    (ps : List Property) (hn : g.unfilteredNodes = some ns)
    (hp : g.unfilteredProperties = some ps) :
    ∃ g' : Graph, refreshGraphData env g = .returned g' ()
      ∧ g'.filterCalls.length = env.filterModules.length
      ∧ ∀ (i : Nat) (c : FilterCall), g'.filterCalls[i]? = some c →
          (i = 0 → c.nodes = ns ∧ c.properties = ps)
          ∧ (∀ (j : Nat) (b : FilterCall), i = j + 1 → g'.filterCalls[j]? = some b →
              c.nodes = b.filteredNodes ∧ c.properties = b.filteredProperties)
          ∧ (∃ u : Nat, c.links = createLinks u c.properties)
          ∧ (∀ n ∈ c.nodes, (c.heap n).links
              = (c.links).filter (fun l => decide (l.domain = n ∨ l.range = n))) := by
  obtain ⟨st, hst, hr⟩ := refreshGraphData_loaded env g ns ps hn hp
  obtain ⟨cs, h1, h2, h3⟩ := runFilterModules_trace env.filterModules
    { heap := g.heap, nextUid := g.nextUid, links := g.links, preprocessedNodes := ns,
      preprocessedProperties := ps, filterCalls := [] }
  rw [← hst] at h1 h2 h3
  simp only [List.nil_append] at h1
  refine ⟨_, hr, ?_, ?_⟩
  · simpa [h1] using h2.length_eq
  · intro i c hc
    simp only [h1] at hc
    obtain ⟨⟨u, -, hu2, -⟩, h4⟩ := h3 c (List.getElem?_mem hc)
    refine ⟨?_, ?_, ⟨u, hu2⟩, h4⟩
    · intro hi
      subst hi
      exact h2.head_input c hc
    · intro j b hj hb
      subst hj
      simp only [h1] at hb
      exact h2.succ_input j b c hb hc

/-- Witness of C6: the example data with the module that hides node 1. -/
theorem refreshGraphData_prefilter_links_witness :
    loadedGraph.unfilteredNodes = some [0, 1]
    ∧ loadedGraph.unfilteredProperties = some [exampleProperty]
    ∧ ∃ g' : Graph, refreshGraphData hidingEnv loadedGraph = .returned g' ()
      ∧ g'.filterCalls.length = hidingEnv.filterModules.length
      ∧ ∀ (i : Nat) (c : FilterCall), g'.filterCalls[i]? = some c →
          (i = 0 → c.nodes = [0, 1] ∧ c.properties = [exampleProperty])
          ∧ (∀ (j : Nat) (b : FilterCall), i = j + 1 → g'.filterCalls[j]? = some b →
              c.nodes = b.filteredNodes ∧ c.properties = b.filteredProperties)
          ∧ (∃ u : Nat, c.links = createLinks u c.properties)
          ∧ (∀ n ∈ c.nodes, (c.heap n).links
              = (c.links).filter (fun l => decide (l.domain = n ∨ l.range = n))) :=
  ⟨rfl, rfl,
    refreshGraphData_prefilter_links hidingEnv loadedGraph [0, 1] [exampleProperty] rfl rfl⟩

/-! ## Freezing -/

theorem foldl_setFrozen_frozen_mem (p : Bool) (nodes : List NodeId) (heap : Heap) (n : NodeId)
    (h : n ∈ nodes) : ((nodes.foldl (fun h n => h.setFrozen n p) heap) n).frozen = p := by
  induction nodes generalizing heap with
  | nil => cases h
  | cons m ms ih =>
    rw [List.foldl_cons]
    by_cases hm : n ∈ ms
    · exact ih _ hm
    · have hnm : n = m := by
        rcases List.mem_cons.mp h with e | e
        · exact e
        · exact absurd e hm
      have keep : ∀ (l : List NodeId) (hp : Heap), n ∉ l →
          (l.foldl (fun h n => h.setFrozen n p) hp) n = hp n := by
        intro l
        induction l with
        | nil => intro hp _; rfl
        | cons a as iha =>
          intro hp hna
          rw [List.foldl_cons, iha _ (fun hmem => hna (List.mem_cons_of_mem _ hmem))]
          have : n ≠ a := fun e => hna (e ▸ List.mem_cons_self _ _)
          simp [Heap.setFrozen, this]
      rw [keep ms _ hm]
      simp [Heap.setFrozen, hnm]

theorem foldl_setFrozen_locked (p : Bool) (nodes : List NodeId) (heap : Heap) (n : NodeId) :
    ((nodes.foldl (fun h n => h.setFrozen n p) heap) n).locked = (heap n).locked := by
  induction nodes generalizing heap with
  | nil => rfl
  | cons m ms ih =>
    rw [List.foldl_cons, ih]
    by_cases e : n = m <;> simp [Heap.setFrozen, e]

theorem refreshGraphData_frozen (env : Env) (g : Graph) (n : NodeId) :
    ((refreshGraphData env g).state.heap n).frozen = (g.heap n).frozen := by
  unfold refreshGraphData
  split
  · split <;> rfl
  · split
    · split <;> rfl
    · simp only [Completion.state]
      rw [storeLinksOnNodes_frozen, runFilterModules_frozen]

theorem redrawContent_heap (g : Graph) : (redrawContent g).state.heap = g.heap := by
  unfold redrawContent
  split
  · rfl
  · simp only
    split
    · rfl
    · split
      · rfl
      · split <;> rfl

theorem redrawContent_nodes (g : Graph) : (redrawContent g).state.nodes = g.nodes := by
  unfold redrawContent
  split
  · rfl
  · simp only
    split
    · rfl
    · split
      · rfl
      · split <;> rfl

theorem recalculatePositions_heap (g : Graph) :
    (recalculatePositions g).state.heap = g.heap := by
  unfold recalculatePositions
  simp only
  split <;> rfl

theorem recalculatePositions_nodes (g : Graph) :
    (recalculatePositions g).state.nodes = g.nodes := by
  unfold recalculatePositions
  simp only
  split <;> rfl

theorem refreshGraphStyle_heap (g : Graph) : (refreshGraphStyle g).heap = g.heap := by
  unfold refreshGraphStyle
  simp only [Graph.emit]
  split <;> rfl

theorem refreshGraphStyle_nodes (g : Graph) : (refreshGraphStyle g).nodes = g.nodes := by
  unfold refreshGraphStyle
  simp only [Graph.emit]
  split <;> rfl

theorem update_frozen (env : Env) (g : Graph) (n : NodeId) :
    ((update env g).state.heap n).frozen = (g.heap n).frozen := by
  have h := refreshGraphData_frozen env g n
  unfold update
  cases hr : refreshGraphData env g with
  | thrown g1 => rw [hr] at h; exact h
  | returned g1 v =>
    rw [hr] at h
    simp only [Completion.state] at h
    simp only [Completion.andThen]
    rw [redrawContent_heap]
    show (((refreshGraphStyle g1).heap) n).frozen = _
    rw [refreshGraphStyle_heap]
    exact h

theorem language_heap (arg : Option JsVal) (g : Graph) :
    (language arg g).state.heap = g.heap := by
  unfold language
  cases arg with
  | none => rfl
  | some v =>
    simp only
    split
    · cases hr : redrawContent { g with language := v.orDefault } with
      | thrown g1 =>
        have := redrawContent_heap { g with language := v.orDefault }
        rw [hr] at this
        exact this
      | returned g1 u =>
        have h1 := redrawContent_heap { g with language := v.orDefault }
        rw [hr] at h1
        simp only [Completion.andThen]
        cases hq : recalculatePositions g1 with
        | thrown g2 =>
          have h2 := recalculatePositions_heap g1
          rw [hq] at h2
          exact h2.trans h1
        | returned g2 u2 =>
          have h2 := recalculatePositions_heap g1
          rw [hq] at h2
          exact h2.trans h1
    · rfl

theorem language_nodes (arg : Option JsVal) (g : Graph) :
    (language arg g).state.nodes = g.nodes := by
  unfold language
  cases arg with
  | none => rfl
  | some v =>
    simp only
    split
    · cases hr : redrawContent { g with language := v.orDefault } with
      | thrown g1 =>
        have := redrawContent_nodes { g with language := v.orDefault }
        rw [hr] at this
        exact this
      | returned g1 u =>
        have h1 := redrawContent_nodes { g with language := v.orDefault }
        rw [hr] at h1
        simp only [Completion.andThen]
        cases hq : recalculatePositions g1 with
        | thrown g2 =>
          have h2 := recalculatePositions_nodes g1
          rw [hq] at h2
          exact h2.trans h1
        | returned g2 u2 =>
          have h2 := recalculatePositions_nodes g1
          rw [hq] at h2
          exact h2.trans h1
    · rfl

/-- No controller call other than `freeze` and `unfreeze` writes a frozen flag. -/
theorem step_frozen (g : Graph) (e : Event) (n : NodeId) :
    ((step g e).heap n).frozen = (g.heap n).frozen := by
  cases e with
  | update env => exact update_frozen env g n
  | reload env => exact update_frozen env (loadGraphData env g) n
  | updateStyle =>
    show (((refreshGraphStyle g).heap) n).frozen = _
    rw [refreshGraphStyle_heap]
  | language arg =>
    show (((language arg g).state.heap) n).frozen = _
    rw [language_heap]
  | reset => rfl
  | dragStart d =>
    show ((g.heap.setLocked d true) n).frozen = _
    by_cases e : n = d <;> simp [Heap.setLocked, e]
  | dragEnd d =>
    show ((g.heap.setLocked d false) n).frozen = _
    by_cases e : n = d <;> simp [Heap.setLocked, e]

/-- A controller call that does not run the data step keeps the displayed node
set. -/
theorem step_nodes (g : Graph) (e : Event) (h : e.refreshesData = false) :
    (step g e).nodes = g.nodes := by
  cases e with
  | update env => cases h
  | reload env => cases h
  | updateStyle =>
    show (refreshGraphStyle g).nodes = _
    rw [refreshGraphStyle_nodes]
  | language arg => exact language_nodes arg g
  | reset => rfl
  | dragStart d => rfl
  | dragEnd d => rfl

theorem run_frozen (events : List Event) (g : Graph) (n : NodeId) :
    ((run g events).heap n).frozen = (g.heap n).frozen := by
  induction events generalizing g with
  | nil => rfl
  | cons e es ih =>
    show ((run (step g e) es).heap n).frozen = _
    rw [ih, step_frozen]

theorem run_nodes (events : List Event) (g : Graph)
    (h : ∀ e ∈ events, e.refreshesData = false) : (run g events).nodes = g.nodes := by
  induction events generalizing g with
  | nil => rfl
  | cons e es ih =>
    show (run (step g e) es).nodes = _
    rw [ih _ (fun e' he' => h e' (List.mem_cons_of_mem _ he')),
      step_nodes g e (h e (List.mem_cons_self _ _))]

theorem freeze_nodes (g : Graph) : (freeze g).nodes = g.nodes := by
  unfold freeze
  split <;> simp_all

theorem freeze_frozen (g : Graph) (nodes : List NodeId) (h : g.nodes = some nodes) (n : NodeId)
    (hn : n ∈ nodes) : ((freeze g).heap n).frozen = true := by
  unfold freeze
  rw [h]
  exact foldl_setFrozen_frozen_mem true nodes g.heap n hn

/-- C4 (counterexample): the graph is started with a filter that hides node 1,
then frozen; `update()` after the filter chain was emptied displays node 1,
whose frozen flag is still `false`. -/
theorem freeze_then_update_unfrozen_node :
    (freeze (start hidingEnv (Graph.initial freshHeap)).state).nodes = some [0]
    ∧ (run (freeze (start hidingEnv (Graph.initial freshHeap)).state)
        [.update plainEnv]).nodes = some [0, 1]
    ∧ ((run (freeze (start hidingEnv (Graph.initial freshHeap)).state)
        [.update plainEnv]).heap 1).frozen = false := by
  refine ⟨rfl, rfl, rfl⟩

/-- C4 (amended): after `freeze()` every node displayed at that moment has
`frozen = true`, and none of the calls update, reload, updateStyle, language,
reset, drag start and drag end writes a frozen flag: the nodes frozen by
`freeze()` stay frozen and a node first displayed by a later update or reload
keeps the flag it had.  Hence, as long as no update or reload ran, every
displayed node is frozen.  `freeze` and `unfreeze` never change a locked flag,
and a frozen node that is dragged is frozen and locked at once. -/
theorem freeze_invariant (g : Graph) (events : List Event) :
    (∀ n : NodeId, ((run (freeze g) events).heap n).frozen = ((freeze g).heap n).frozen)
    ∧ (∀ nodes : List NodeId, g.nodes = some nodes →
        ∀ n ∈ nodes, ((run (freeze g) events).heap n).frozen = true)
    ∧ ((∀ e ∈ events, e.refreshesData = false) →
        (run (freeze g) events).nodes = g.nodes
        ∧ ∀ nodes : List NodeId, (run (freeze g) events).nodes = some nodes →
            ∀ n ∈ nodes, ((run (freeze g) events).heap n).frozen = true)
    ∧ (∀ n : NodeId, ((freeze g).heap n).locked = (g.heap n).locked
        ∧ ((unfreeze g).heap n).locked = (g.heap n).locked)
    ∧ (∀ nodes : List NodeId, g.nodes = some nodes → ∀ d ∈ nodes,
        ((dragStart d (freeze g)).heap d).frozen = true
        ∧ ((dragStart d (freeze g)).heap d).locked = true) := by
  have hkeep : ∀ nodes : List NodeId, g.nodes = some nodes →
      ∀ n ∈ nodes, ((run (freeze g) events).heap n).frozen = true := by
    intro nodes hg n hn
    rw [run_frozen]
    exact freeze_frozen g nodes hg n hn
  refine ⟨fun n => run_frozen events (freeze g) n, hkeep, ?_, ?_, ?_⟩
  · intro hev
    have hnodes : (run (freeze g) events).nodes = g.nodes := by
      rw [run_nodes events (freeze g) hev, freeze_nodes]
    refine ⟨hnodes, ?_⟩
    intro nodes hr n hn
    exact hkeep nodes (hnodes ▸ hr) n hn
  · intro n
    constructor
    · unfold freeze
      split
      · exact foldl_setFrozen_locked true _ g.heap n
      · rfl
    · unfold unfreeze
      split
      · exact foldl_setFrozen_locked false _ g.heap n
      · rfl
  · intro nodes hg d hd
    constructor
    · show ((((freeze g).heap).setLocked d true) d).frozen = true
      simp only [Heap.setLocked, if_true]
      exact freeze_frozen g nodes hg d hd
    · show ((((freeze g).heap).setLocked d true) d).locked = true
      simp [Heap.setLocked]

/-- Witness of C4 (amended): the started example graph, frozen, then a drag of
node 0, a language switch and a style update. -/
theorem freeze_invariant_witness :
    (start hidingEnv (Graph.initial freshHeap)).state.nodes = some [0]
    ∧ (0 : NodeId) ∈ [0]
    ∧ ((run (freeze (start hidingEnv (Graph.initial freshHeap)).state)
        [.dragStart 0, .dragEnd 0, .language (some (.str "en")), .updateStyle]).heap 0).frozen
        = true :=
  ⟨rfl, by decide,
    (freeze_invariant (start hidingEnv (Graph.initial freshHeap)).state
      [.dragStart 0, .dragEnd 0, .language (some (.str "en")), .updateStyle]).2.1 [0] rfl 0
      (by decide)⟩

/-! ## Language switch -/

/-- C8 (evaluation of the code at the failing input): on the started example
graph, whose language is `"default"`, the call `graph.language("")` returns the
graph and leaves the language `"default"`, yet it runs `redrawContent` and
`recalculatePositions`. -/
theorem language_rebuilds_without_change :
    (start plainEnv (Graph.initial freshHeap)).state.language = .str "default"
    ∧ (language (some (.str "")) (start plainEnv (Graph.initial freshHeap)).state).isReturned
        = true
    ∧ (language (some (.str "")) (start plainEnv (Graph.initial freshHeap)).state).state.language
        = .str "default"
    ∧ (language (some (.str "")) (start plainEnv (Graph.initial freshHeap)).state).state.effects
        = (start plainEnv (Graph.initial freshHeap)).state.effects
            ++ [.redrawContent, .recalculatePositions] := by
  refine ⟨rfl, ?_, ?_, ?_⟩ <;> decide

end WebVOWL
